import Mathlib

/-!
Verification of the LS8 CPU emulator (`src/ls8/cpu.py`) against its
natural-language specification.

The emulator is a Python class `CPU` whose state consists of a 256-cell RAM
list, an 8-slot register list, and the internal registers `pc`, `ir`, `mar`,
`mdr`, `fl`.  Python integers are unbounded and the code performs no masking,
so every stored value is modelled as `Int`.  Python list indexing accepts
negative indices in `[-len, 0)` by wrapping to `index + len`, and raises
`IndexError` outside `[-len, len)`; this is modelled by `pyIdx`.  Python
exceptions (`IndexError`, dictionary `KeyError`, and `raise Exception(msg)`)
are modelled with the `Except PyError` monad.  The `print` side effect of
`prn` is not modelled (no claim concerns output); its register read, which
can fault, is retained.
-/

namespace LS8

/-- Python errors that the emulator can raise: list `IndexError`,
dictionary `KeyError` (carrying the missing key), and a generic
`Exception` with its message string. -/
inductive PyError where
  | indexError : PyError
  | keyError : Int → PyError
  | exception : String → PyError
deriving DecidableEq

instance {ε α : Type} [DecidableEq ε] [DecidableEq α] : DecidableEq (Except ε α) := fun x y =>
  match x, y with
  | .ok a, .ok b => if h : a = b then .isTrue (by rw [h]) else .isFalse (by simp [h])
  | .error a, .error b => if h : a = b then .isTrue (by rw [h]) else .isFalse (by simp [h])
  | .ok _, .error _ => .isFalse (by simp)
  | .error _, .ok _ => .isFalse (by simp)

/-- Python list indexing for a list of length `n`: an index `i` with
`0 ≤ i < n` is used as is, an index with `-n ≤ i < 0` wraps to `i + n`,
and anything else is an `IndexError` (`none`). -/
def pyIdx (n : Nat) (i : Int) : Option (Fin n) :=
  if h : 0 ≤ i ∧ i < (n : Int) then
    some ⟨i.toNat, by omega⟩
  else if h2 : -(n : Int) ≤ i ∧ i < 0 then
    some ⟨(i + (n : Int)).toNat, by omega⟩
  else
    none

/-- The mutable state of the Python `CPU` object: `ram` (256-cell list),
`reg` (8-cell list), and the internal registers. -/
structure CPUState where
  ram : Fin 256 → Int
  reg : Fin 8 → Int
  pc : Int
  ir : Int
  mar : Int
  mdr : Int
  fl : Int

instance : DecidableEq CPUState := fun a b =>
  decidable_of_iff
    (a.ram = b.ram ∧ a.reg = b.reg ∧ a.pc = b.pc ∧ a.ir = b.ir ∧ a.mar = b.mar ∧
      a.mdr = b.mdr ∧ a.fl = b.fl)
    (by cases a; cases b; simp)

/-- The state built by `CPU.__init__`: zeroed RAM, zeroed registers except
the stack pointer `reg[7] = 0xF4`, and zeroed internal registers. -/
def initCPU : CPUState :=
  { ram := fun _ => 0
    reg := fun i => if i.val = 7 then 0xF4 else 0
    pc := 0
    ir := 0
    mar := 0
    mdr := 0
    fl := 0 }

/-- `CPU.ram_read`: `return self.ram[self.mar]`. -/
def ram_read (s : CPUState) : Except PyError Int :=
  match pyIdx 256 s.mar with
  | some i => .ok (s.ram i)
  | none => .error .indexError

/-- `CPU.ram_write`: `self.ram[self.mar] = self.mdr`. -/
def ram_write (s : CPUState) : Except PyError CPUState :=
  match pyIdx 256 s.mar with
  | some i => .ok { s with ram := Function.update s.ram i s.mdr }
  | none => .error .indexError

/-- A read `self.reg[x]` for a computed index `x`. -/
def reg_read (s : CPUState) (x : Int) : Except PyError Int :=
  match pyIdx 8 x with
  | some i => .ok (s.reg i)
  | none => .error .indexError

/-- A write `self.reg[x] = v` for a computed index `x`. -/
def reg_write (s : CPUState) (x : Int) (v : Int) : Except PyError CPUState :=
  match pyIdx 8 x with
  | some i => .ok { s with reg := Function.update s.reg i v }
  | none => .error .indexError

/-- `CPU.alu`: only `"ADD"` (`self.reg[reg_a] += self.reg[reg_b]`) and
`"MUL"` (`self.reg[reg_a] *= self.reg[reg_b]`) are implemented, with no
`& 0xFF` masking; every other op raises
`Exception("Unsupported ALU operation")`. -/
def alu (s : CPUState) (op : String) (reg_a reg_b : Int) : Except PyError CPUState :=
  if op = "ADD" then
    match pyIdx 8 reg_a, pyIdx 8 reg_b with
    | some ia, some ib => .ok { s with reg := Function.update s.reg ia (s.reg ia + s.reg ib) }
    | _, _ => .error .indexError
  else if op = "MUL" then
    match pyIdx 8 reg_a, pyIdx 8 reg_b with
    | some ia, some ib => .ok { s with reg := Function.update s.reg ia (s.reg ia * s.reg ib) }
    | _, _ => .error .indexError
  else
    .error (.exception "Unsupported ALU operation")

/-- `CPU.add`: fetch two operand bytes via `mar`, run the ALU, `pc += 3`. -/
def add (s : CPUState) : Except PyError CPUState := do
  let s := { s with mar := s.mar + 1 }
  let reg_a ← ram_read s
  let s := { s with mar := s.mar + 1 }
  let reg_b ← ram_read s
  let s ← alu s "ADD" reg_a reg_b
  return { s with pc := s.pc + 3 }

/-- `CPU.mul`: fetch two operand bytes via `mar`, run the ALU, `pc += 3`. -/
def mul (s : CPUState) : Except PyError CPUState := do
  let s := { s with mar := s.mar + 1 }
  let reg_a ← ram_read s
  let s := { s with mar := s.mar + 1 }
  let reg_b ← ram_read s
  let s ← alu s "MUL" reg_a reg_b
  return { s with pc := s.pc + 3 }

/-- `CPU.ldi`: `self.reg[reg_a] = reg_b` with no masking, `pc += 3`. -/
def ldi (s : CPUState) : Except PyError CPUState := do
  let s := { s with mar := s.mar + 1 }
  let reg_a ← ram_read s
  let s := { s with mar := s.mar + 1 }
  let reg_b ← ram_read s
  let s ← reg_write s reg_a reg_b
  return { s with pc := s.pc + 3 }

/-- `CPU.push`: read the operand, `self.reg[7] -= 1`, `self.mar = self.reg[7]`,
`self.mdr = self.reg[reg_a]`, `self.ram_write()`, `pc += 2`. -/
def push (s : CPUState) : Except PyError CPUState := do
  let s := { s with mar := s.mar + 1 }
  let reg_a ← ram_read s
  let s := { s with reg := Function.update s.reg 7 (s.reg 7 - 1) }
  let s := { s with mar := s.reg 7 }
  let v ← reg_read s reg_a
  let s := { s with mdr := v }
  let s ← ram_write s
  return { s with pc := s.pc + 2 }

/-- `CPU.pop`: read the operand, `self.mar = self.reg[7]`,
`self.reg[reg_a] = self.ram_read()`, `self.reg[7] += 1`, `pc += 2`. -/
def pop (s : CPUState) : Except PyError CPUState := do
  let s := { s with mar := s.mar + 1 }
  let reg_a ← ram_read s
  let s := { s with mar := s.reg 7 }
  let v ← ram_read s
  let s ← reg_write s reg_a v
  let s := { s with reg := Function.update s.reg 7 (s.reg 7 + 1) }
  return { s with pc := s.pc + 2 }

/-- `CPU.call`: read the operand, `self.reg[7] -= 1`, `self.mar = self.reg[7]`,
`self.mdr = self.pc + 2`, `self.ram_write()`, `self.pc = self.reg[reg_a]`. -/
def call (s : CPUState) : Except PyError CPUState := do
  let s := { s with mar := s.mar + 1 }
  let reg_a ← ram_read s
  let s := { s with reg := Function.update s.reg 7 (s.reg 7 - 1) }
  let s := { s with mar := s.reg 7 }
  let s := { s with mdr := s.pc + 2 }
  let s ← ram_write s
  let v ← reg_read s reg_a
  return { s with pc := v }

/-- `CPU.ret`: `self.mar = self.reg[7]`, `self.pc = self.ram_read()`,
`self.reg[7] += 1`. -/
def ret (s : CPUState) : Except PyError CPUState := do
  let s := { s with mar := s.reg 7 }
  let v ← ram_read s
  let s := { s with pc := v }
  return { s with reg := Function.update s.reg 7 (s.reg 7 + 1) }

/-- `CPU.cmp`: read the two operand bytes, compare the two register values,
set `fl` to `0b001` on equal, `0b010` on greater, `0b100` on less, `pc += 3`. -/
def cmp (s : CPUState) : Except PyError CPUState := do
  let s := { s with mar := s.mar + 1 }
  let reg_a ← ram_read s
  let s := { s with mar := s.mar + 1 }
  let reg_b ← ram_read s
  let va ← reg_read s reg_a
  let vb ← reg_read s reg_b
  let s :=
    if va = vb then { s with fl := 0b00000001 }
    else if va > vb then { s with fl := 0b00000010 }
    else { s with fl := 0b00000100 }
  return { s with pc := s.pc + 3 }

/-- `CPU.jmp`: read the operand, `self.pc = self.reg[reg_a]`. -/
def jmp (s : CPUState) : Except PyError CPUState := do
  let s := { s with mar := s.mar + 1 }
  let reg_a ← ram_read s
  let v ← reg_read s reg_a
  return { s with pc := v }

/-- `CPU.jeq`: `if self.fl == 0b00000001` jump to the register's value,
else `pc += 2`. -/
def jeq (s : CPUState) : Except PyError CPUState :=
  if s.fl = 0b00000001 then do
    let s := { s with mar := s.mar + 1 }
    let reg_a ← ram_read s
    let v ← reg_read s reg_a
    return { s with pc := v }
  else
    .ok { s with pc := s.pc + 2 }

/-- `CPU.jne`: `if self.fl & 0b00000001 == 0` jump to the register's value,
else `pc += 2`. -/
def jne (s : CPUState) : Except PyError CPUState :=
  if Int.land s.fl 0b00000001 = 0 then do
    let s := { s with mar := s.mar + 1 }
    let reg_a ← ram_read s
    let v ← reg_read s reg_a
    return { s with pc := v }
  else
    .ok { s with pc := s.pc + 2 }

/-- `CPU.prn`: read the operand, read the register (the `print` output itself
is not modelled), `pc += 2`. -/
def prn (s : CPUState) : Except PyError CPUState := do
  let s := { s with mar := s.mar + 1 }
  let reg_a ← ram_read s
  let _ ← reg_read s reg_a
  return { s with pc := s.pc + 2 }

/-- `self.branch_table[self.ir]()`: the dictionary built in `CPU.__init__`,
keyed by opcode byte; a missing key is a `KeyError`. -/
def branch_table (s : CPUState) : Except PyError CPUState :=
  if s.ir = 0b10100000 then add s
  else if s.ir = 0b10100010 then mul s
  else if s.ir = 0b10100111 then cmp s
  else if s.ir = 0b01010000 then call s
  else if s.ir = 0b00010001 then ret s
  else if s.ir = 0b01010100 then jmp s
  else if s.ir = 0b01010101 then jeq s
  else if s.ir = 0b01010110 then jne s
  else if s.ir = 0b10000010 then ldi s
  else if s.ir = 0b01000101 then push s
  else if s.ir = 0b01000110 then pop s
  else if s.ir = 0b01000111 then prn s
  else .error (.keyError s.ir)

/-- The fetch prefix of `CPU.run` and of each loop iteration:
`self.mar = self.pc; self.ir = self.ram_read()`. -/
def fetch (s : CPUState) : Except PyError CPUState := do
  let s := { s with mar := s.pc }
  let v ← ram_read s
  return { s with ir := v }

/-- The byte-copy loop of `CPU.load` applied to an already parsed program
(the file reading and binary parsing are out of the core's scope): for each
byte, `self.mar = i; self.mdr = program[i]; self.ram_write()`. -/
def loadFrom : List Int → Int → CPUState → Except PyError CPUState
  | [], _, s => .ok s
  | b :: rest, i, s => do
    let s := { s with mar := i, mdr := b }
    let s ← ram_write s
    loadFrom rest (i + 1) s

/-- `CPU.load` restricted to its memory-copy loop, starting at address 0. -/
def load (prog : List Int) (s : CPUState) : Except PyError CPUState :=
  loadFrom prog 0 s

/-- `CPU.run`, fuelled and instrumented with the nesting depth of `run`
invocations.  `runAux fuel true s` models a call of `run` (fetch, then the
while loop); `runAux fuel false s` models the remaining iterations of the
while loop of the current invocation.  The Python body is

`self.mar = self.pc; self.ir = self.ram_read()` then
`while not self.ir == 1: self.branch_table[self.ir](); self.mar = self.pc;`
`self.ir = self.ram_read(); self.run()`

so each loop iteration ends by re-invoking `run` recursively.  The returned
`Nat` is the maximal nesting depth of `run` invocations (the current one
included); `none` means the fuel ran out. -/
def runAux : Nat → Bool → CPUState → Option (Except PyError (CPUState × Nat))
  | 0, _, _ => none
  | fuel + 1, true, s =>
    match fetch s with
    | .error e => some (.error e)
    | .ok s1 =>
      match runAux fuel false s1 with
      | some (.ok (s2, d)) => some (.ok (s2, d + 1))
      | r => r
  | fuel + 1, false, s =>
    if s.ir = 1 then some (.ok (s, 0))
    else
      match branch_table s with
      | .error e => some (.error e)
      | .ok s1 =>
        match fetch s1 with
        | .error e => some (.error e)
        | .ok s2 =>
          match runAux fuel true s2 with
          | none => none
          | some (.error e) => some (.error e)
          | some (.ok (s3, d)) =>
            match runAux fuel false s3 with
            | none => none
            | some (.error e) => some (.error e)
            | some (.ok (s4, d')) => some (.ok (s4, max d d'))

/-- A complete `CPU.run` call with the given fuel. -/
def run (fuel : Nat) (s : CPUState) : Option (Except PyError (CPUState × Nat)) :=
  runAux fuel true s

/-- Load a program into a fresh machine and run it, keeping only the
call-nesting depth of `run`. -/
def runDepth (prog : List Int) (fuel : Nat) : Option (Except PyError Nat) :=
  match load prog initCPU with
  | .error e => some (.error e)
  | .ok s => (run fuel s).map (Except.map Prod.snd)

/-- One non-halting iteration of the `run` loop: fetch the instruction byte
at `pc`, then dispatch through the branch table. -/
def fetchExec (s : CPUState) : Except PyError CPUState := do
  let s1 ← fetch s
  branch_table s1

/-- Two consecutive non-halting iterations of the `run` loop. -/
def twoSteps (s : CPUState) : Except PyError CPUState := do
  let s1 ← fetchExec s
  fetchExec s1

/-- The states a `CPU` object can be in: freshly constructed, after a
(successful) `load`, or after any number of successful fetch-dispatch
iterations of `run`. -/
inductive Reached : CPUState → Prop where
  | init : Reached initCPU
  | loaded : ∀ prog s s', Reached s → load prog s = .ok s' → Reached s'
  | step : ∀ s s', Reached s → fetchExec s = .ok s' → Reached s'

/-- A state whose registers hold `R0 = 200`, `R1 = 100`, used to exercise
the ALU on byte values whose sum and product exceed 255. -/
def aluState : CPUState :=
  { initCPU with reg := fun i => if i.val = 0 then 200 else if i.val = 1 then 100 else 0 }

/-- A state whose RAM holds the operand bytes `0` and `999` for an `LDI`
instruction (the loader parses binary tokens with no range check, so a RAM
cell can hold a value above 255). -/
def ldiState : CPUState :=
  { initCPU with ram := fun i => if i.val = 1 then 0 else if i.val = 2 then 999 else 0 }

/-- A state about to execute `PUSH R0` with the stack pointer already 0:
`ram = [PUSH, 0, ...]`, `R0 = 42`, `R7 = 0`. -/
def pushSpZeroState : CPUState :=
  { initCPU with
    ram := fun i => if i.val = 0 then 0b01000101 else 0
    reg := fun i => if i.val = 0 then 42 else 0 }

/-- A state about to execute `CMP R2, R3` with `R2 = 9 > R3 = 4`:
`ram = [CMP, 2, 3, ...]`. -/
def cmpGtState : CPUState :=
  { initCPU with
    ram := fun i => if i.val = 0 then 0b10100111 else if i.val = 1 then 2 else
      if i.val = 2 then 3 else 0
    reg := fun i => if i.val = 2 then 9 else if i.val = 3 then 4 else 0 }

/-- The state after executing `CMP R2, R3` from `cmpGtState`. -/
def cmpGtRes : CPUState := (cmp ({ cmpGtState with mar := cmpGtState.pc })).toOption.getD cmpGtState

/-- A state about to execute `CMP R0, R1` with `R0 = R1 = 5`:
`ram = [CMP, 0, 1, ...]`. -/
def cmpEqState : CPUState :=
  { initCPU with
    ram := fun i => if i.val = 0 then 0b10100111 else if i.val = 1 then 0 else
      if i.val = 2 then 1 else 0
    reg := fun i => if i.val = 0 then 5 else if i.val = 1 then 5 else 0 }

/-- The state after executing `CMP R0, R1` from `cmpEqState`. -/
def cmpEqRes : CPUState := (cmp ({ cmpEqState with mar := cmpEqState.pc })).toOption.getD cmpEqState

/-- A state about to execute `PUSH R0; POP R7` (the popped-into register is
the stack pointer itself): `ram = [PUSH, 0, POP, 7, ...]`, `R0 = 42`,
`R7 = 244`.  All stack activity stays inside `[0, 255]`. -/
def pushPopR7State : CPUState :=
  { initCPU with
    ram := fun i => if i.val = 0 then 0b01000101 else if i.val = 1 then 0 else
      if i.val = 2 then 0b01000110 else if i.val = 3 then 7 else 0
    reg := fun i => if i.val = 0 then 42 else if i.val = 7 then 244 else 0 }

/-- A state about to execute `PUSH R0; POP R1`: `ram = [PUSH, 0, POP, 1, ...]`,
`R0 = 42`, `R1 = 7`, `R7 = 244`. -/
def pushPopOkState : CPUState :=
  { initCPU with
    ram := fun i => if i.val = 0 then 0b01000101 else if i.val = 1 then 0 else
      if i.val = 2 then 0b01000110 else if i.val = 3 then 1 else 0
    reg := fun i => if i.val = 0 then 42 else if i.val = 1 then 7 else
      if i.val = 7 then 244 else 0 }

/-- A state about to execute `CALL R0` with `R0 = 10` and a `RET` at
address 10: `ram = [CALL, 0, ..., RET at 10, ...]`, `R7 = 244`. -/
def callRetState : CPUState :=
  { initCPU with
    ram := fun i => if i.val = 0 then 0b01010000 else if i.val = 1 then 0 else
      if i.val = 10 then 0b00010001 else 0
    reg := fun i => if i.val = 0 then 10 else if i.val = 7 then 244 else 0 }

/-- A state about to execute `JEQ R3` with the Equal flag set: `R3 = 77`,
`ram = [JEQ, 3, ...]`, `fl = 1`. -/
def jeqTakenState : CPUState :=
  { initCPU with
    ram := fun i => if i.val = 0 then 0b01010101 else if i.val = 1 then 3 else 0
    reg := fun i => if i.val = 3 then 77 else 0
    fl := 1 }

/-- The state after executing `JEQ R3` from `jeqTakenState`. -/
def jeqTakenRes : CPUState := (jeq jeqTakenState).toOption.getD jeqTakenState

/-- The state after executing `JNE R3` from `jeqTakenState` (Equal bit set,
so the jump falls through). -/
def jneNotTakenRes : CPUState := (jne jeqTakenState).toOption.getD jeqTakenState

end LS8


namespace LS8

theorem ok_bind {α β : Type} (a : α) (f : α → Except PyError β) :
    (Except.ok a >>= f) = f a := rfl

theorem except_bind_ok {α β : Type} {x : Except PyError α} {f : α → Except PyError β} {c : β} :
    x >>= f = .ok c ↔ ∃ b, x = .ok b ∧ f b = .ok c := by
  cases x <;> simp [Bind.bind, Except.bind]

theorem pure_eq_ok {α : Type} {b c : α} :
    (pure b : Except PyError α) = .ok c ↔ b = c := by
  simp [pure, Except.pure]

theorem pyIdx_pos {n : Nat} {i : Int} (h1 : 0 ≤ i) (h2 : i < (n : Int)) :
    pyIdx n i = some ⟨i.toNat, by omega⟩ := by
  unfold pyIdx
  rw [dif_pos ⟨h1, h2⟩]

theorem pyIdx_fin {n : Nat} (r : Fin n) : pyIdx n (r.val : Int) = some r := by
  have h2 : ((r.val : Int)) < (n : Int) := by exact_mod_cast r.isLt
  rw [pyIdx_pos (Int.natCast_nonneg _) h2]
  simp

theorem ram_read_ok {s : CPUState} (h1 : 0 ≤ s.mar) (h2 : s.mar < 256) :
    ram_read s = .ok (s.ram ⟨s.mar.toNat, by omega⟩) := by
  unfold ram_read
  rw [pyIdx_pos h1 (by omega)]

theorem ram_write_ok {s : CPUState} (h1 : 0 ≤ s.mar) (h2 : s.mar < 256) :
    ram_write s = .ok { s with ram := Function.update s.ram ⟨s.mar.toNat, by omega⟩ s.mdr } := by
  unfold ram_write
  rw [pyIdx_pos h1 (by omega)]

theorem reg_read_ok {s : CPUState} (r : Fin 8) :
    reg_read s (r.val : Int) = .ok (s.reg r) := by
  unfold reg_read
  rw [pyIdx_fin]

theorem reg_write_ok {s : CPUState} (r : Fin 8) (v : Int) :
    reg_write s (r.val : Int) v = .ok { s with reg := Function.update s.reg r v } := by
  unfold reg_write
  rw [pyIdx_fin]


theorem fetch_ok {s : CPUState} {ip : Fin 256} (hp : pyIdx 256 s.pc = some ip) :
    fetch s = .ok { s with mar := s.pc, ir := s.ram ip } := by
  simp only [fetch, ram_read, Bind.bind, Except.bind, hp, pure, Except.pure]

theorem push_ok {s : CPUState} {iop iw : Fin 256} (r : Fin 8)
    (hop : pyIdx 256 (s.mar + 1) = some iop)
    (hopv : s.ram iop = (r.val : Int))
    (hw : pyIdx 256 (s.reg 7 - 1) = some iw) :
    push s = .ok
      { s with
        ram := Function.update s.ram iw (Function.update s.reg 7 (s.reg 7 - 1) r)
        reg := Function.update s.reg 7 (s.reg 7 - 1)
        mar := s.reg 7 - 1
        mdr := Function.update s.reg 7 (s.reg 7 - 1) r
        pc := s.pc + 2 } := by
  simp only [push, ram_read, ram_write, reg_read, Bind.bind, Except.bind, hop, hopv, hw,
    pyIdx_fin, Function.update_same, pure, Except.pure]


theorem pop_ok {s : CPUState} {iop isp : Fin 256} (r : Fin 8)
    (hop : pyIdx 256 (s.mar + 1) = some iop)
    (hopv : s.ram iop = (r.val : Int))
    (hsp : pyIdx 256 (s.reg 7) = some isp) :
    pop s = .ok
      { s with
        reg := Function.update (Function.update s.reg r (s.ram isp)) 7
          (Function.update s.reg r (s.ram isp) 7 + 1)
        mar := s.reg 7
        pc := s.pc + 2 } := by
  simp only [pop, ram_read, reg_read, reg_write, Bind.bind, Except.bind, hop, hopv, hsp,
    pyIdx_fin, pure, Except.pure]

theorem call_ok {s : CPUState} {iop iw : Fin 256} (r : Fin 8)
    (hop : pyIdx 256 (s.mar + 1) = some iop)
    (hopv : s.ram iop = (r.val : Int))
    (hw : pyIdx 256 (s.reg 7 - 1) = some iw) :
    call s = .ok
      { s with
        ram := Function.update s.ram iw (s.pc + 2)
        reg := Function.update s.reg 7 (s.reg 7 - 1)
        mar := s.reg 7 - 1
        mdr := s.pc + 2
        pc := Function.update s.reg 7 (s.reg 7 - 1) r } := by
  simp only [call, ram_read, ram_write, reg_read, Bind.bind, Except.bind, hop, hopv, hw,
    pyIdx_fin, Function.update_same, pure, Except.pure]

theorem ret_ok {s : CPUState} {isp : Fin 256}
    (hsp : pyIdx 256 (s.reg 7) = some isp) :
    ret s = .ok
      { s with
        reg := Function.update s.reg 7 (s.reg 7 + 1)
        mar := s.reg 7
        pc := s.ram isp } := by
  simp only [ret, ram_read, Bind.bind, Except.bind, hsp, pure, Except.pure]

theorem cmp_ok {s : CPUState} {ia ib : Fin 256} (ra rb : Fin 8)
    (hopa : pyIdx 256 (s.mar + 1) = some ia)
    (hva : s.ram ia = (ra.val : Int))
    (hopb : pyIdx 256 (s.mar + 1 + 1) = some ib)
    (hvb : s.ram ib = (rb.val : Int)) :
    cmp s = .ok
      { s with
        mar := s.mar + 1 + 1
        fl := if s.reg ra = s.reg rb then 1 else if s.reg ra > s.reg rb then 2 else 4
        pc := s.pc + 3 } := by
  simp only [cmp, ram_read, reg_read, Bind.bind, Except.bind, hopa, hva, hopb, hvb,
    pyIdx_fin, pure, Except.pure]
  split_ifs <;> rfl

theorem jeq_taken_ok {s : CPUState} {iop : Fin 256} (r : Fin 8)
    (hfl : s.fl = 1)
    (hop : pyIdx 256 (s.mar + 1) = some iop)
    (hopv : s.ram iop = (r.val : Int)) :
    jeq s = .ok { s with mar := s.mar + 1, pc := s.reg r } := by
  simp only [jeq, hfl, if_pos, ram_read, reg_read, Bind.bind, Except.bind, hop, hopv,
    pyIdx_fin, pure, Except.pure]

theorem jeq_not_taken_ok {s : CPUState} (hfl : s.fl ≠ 1) :
    jeq s = .ok { s with pc := s.pc + 2 } := by
  simp only [jeq, hfl, if_false, ite_false]

theorem jne_taken_ok {s : CPUState} {iop : Fin 256} (r : Fin 8)
    (hfl : Int.land s.fl 1 = 0)
    (hop : pyIdx 256 (s.mar + 1) = some iop)
    (hopv : s.ram iop = (r.val : Int)) :
    jne s = .ok { s with mar := s.mar + 1, pc := s.reg r } := by
  simp only [jne, hfl, if_pos, ram_read, reg_read, Bind.bind, Except.bind, hop, hopv,
    pyIdx_fin, pure, Except.pure]

theorem jne_not_taken_ok {s : CPUState} (hfl : Int.land s.fl 1 ≠ 0) :
    jne s = .ok { s with pc := s.pc + 2 } := by
  simp only [jne, hfl, if_false, ite_false]


theorem alu_fl {s t : CPUState} {op : String} {a b : Int} (h : alu s op a b = .ok t) :
    t.fl = s.fl := by
  unfold alu at h
  split_ifs at h <;> try cases h
  · split at h
    · cases h; rfl
    · cases h
  · split at h
    · cases h; rfl
    · cases h

theorem ram_write_fl {s t : CPUState} (h : ram_write s = .ok t) : t.fl = s.fl := by
  unfold ram_write at h
  split at h
  · cases h; rfl
  · cases h

theorem reg_write_fl {s t : CPUState} {x v : Int} (h : reg_write s x v = .ok t) :
    t.fl = s.fl := by
  unfold reg_write at h
  split at h
  · cases h; rfl
  · cases h

theorem add_fl {s t : CPUState} (h : add s = .ok t) : t.fl = s.fl := by
  simp only [add] at h
  rw [except_bind_ok] at h; obtain ⟨a, _, h⟩ := h
  rw [except_bind_ok] at h; obtain ⟨b, _, h⟩ := h
  rw [except_bind_ok] at h; obtain ⟨u, hu, h⟩ := h
  rw [pure_eq_ok] at h; subst h
  have h2 := alu_fl hu
  exact h2

theorem mul_fl {s t : CPUState} (h : mul s = .ok t) : t.fl = s.fl := by
  simp only [mul] at h
  rw [except_bind_ok] at h; obtain ⟨a, _, h⟩ := h
  rw [except_bind_ok] at h; obtain ⟨b, _, h⟩ := h
  rw [except_bind_ok] at h; obtain ⟨u, hu, h⟩ := h
  rw [pure_eq_ok] at h; subst h
  have h2 := alu_fl hu
  exact h2

theorem ldi_fl {s t : CPUState} (h : ldi s = .ok t) : t.fl = s.fl := by
  simp only [ldi] at h
  rw [except_bind_ok] at h; obtain ⟨a, _, h⟩ := h
  rw [except_bind_ok] at h; obtain ⟨b, _, h⟩ := h
  rw [except_bind_ok] at h; obtain ⟨u, hu, h⟩ := h
  rw [pure_eq_ok] at h; subst h
  have h2 := reg_write_fl hu
  exact h2

theorem push_fl {s t : CPUState} (h : push s = .ok t) : t.fl = s.fl := by
  simp only [push] at h
  rw [except_bind_ok] at h; obtain ⟨a, _, h⟩ := h
  rw [except_bind_ok] at h; obtain ⟨v, _, h⟩ := h
  rw [except_bind_ok] at h; obtain ⟨u, hu, h⟩ := h
  rw [pure_eq_ok] at h; subst h
  have h2 := ram_write_fl hu
  exact h2

theorem pop_fl {s t : CPUState} (h : pop s = .ok t) : t.fl = s.fl := by
  simp only [pop] at h
  rw [except_bind_ok] at h; obtain ⟨a, _, h⟩ := h
  rw [except_bind_ok] at h; obtain ⟨v, _, h⟩ := h
  rw [except_bind_ok] at h; obtain ⟨u, hu, h⟩ := h
  rw [pure_eq_ok] at h; subst h
  have h2 := reg_write_fl hu
  exact h2

theorem call_fl {s t : CPUState} (h : call s = .ok t) : t.fl = s.fl := by
  simp only [call] at h
  rw [except_bind_ok] at h; obtain ⟨a, _, h⟩ := h
  rw [except_bind_ok] at h; obtain ⟨u, hu, h⟩ := h
  rw [except_bind_ok] at h; obtain ⟨v, _, h⟩ := h
  rw [pure_eq_ok] at h; subst h
  have h2 := ram_write_fl hu
  exact h2

theorem ret_fl {s t : CPUState} (h : ret s = .ok t) : t.fl = s.fl := by
  simp only [ret] at h
  rw [except_bind_ok] at h; obtain ⟨v, _, h⟩ := h
  rw [pure_eq_ok] at h; subst h
  rfl

theorem jmp_fl {s t : CPUState} (h : jmp s = .ok t) : t.fl = s.fl := by
  simp only [jmp] at h
  rw [except_bind_ok] at h; obtain ⟨a, _, h⟩ := h
  rw [except_bind_ok] at h; obtain ⟨v, _, h⟩ := h
  rw [pure_eq_ok] at h; subst h
  rfl

theorem jeq_fl {s t : CPUState} (h : jeq s = .ok t) : t.fl = s.fl := by
  unfold jeq at h
  split_ifs at h
  · rw [except_bind_ok] at h; obtain ⟨a, _, h⟩ := h
    rw [except_bind_ok] at h; obtain ⟨v, _, h⟩ := h
    rw [pure_eq_ok] at h; subst h
    rfl
  · cases h; rfl

theorem jne_fl {s t : CPUState} (h : jne s = .ok t) : t.fl = s.fl := by
  unfold jne at h
  split_ifs at h
  · rw [except_bind_ok] at h; obtain ⟨a, _, h⟩ := h
    rw [except_bind_ok] at h; obtain ⟨v, _, h⟩ := h
    rw [pure_eq_ok] at h; subst h
    rfl
  · cases h; rfl

theorem prn_fl {s t : CPUState} (h : prn s = .ok t) : t.fl = s.fl := by
  simp only [prn] at h
  rw [except_bind_ok] at h; obtain ⟨a, _, h⟩ := h
  rw [except_bind_ok] at h; obtain ⟨v, _, h⟩ := h
  rw [pure_eq_ok] at h; subst h
  rfl

theorem cmp_fl {s t : CPUState} (h : cmp s = .ok t) :
    t.fl = 1 ∨ t.fl = 2 ∨ t.fl = 4 := by
  simp only [cmp] at h
  rw [except_bind_ok] at h; obtain ⟨a, _, h⟩ := h
  rw [except_bind_ok] at h; obtain ⟨b, _, h⟩ := h
  rw [except_bind_ok] at h; obtain ⟨va, _, h⟩ := h
  rw [except_bind_ok] at h; obtain ⟨vb, _, h⟩ := h
  split_ifs at h <;> (rw [pure_eq_ok] at h; subst h)
  · exact .inl rfl
  · exact .inr (.inl rfl)
  · exact .inr (.inr rfl)

theorem fetch_fl {s t : CPUState} (h : fetch s = .ok t) : t.fl = s.fl := by
  simp only [fetch] at h
  rw [except_bind_ok] at h; obtain ⟨v, _, h⟩ := h
  rw [pure_eq_ok] at h; subst h
  rfl

theorem branch_table_fl {s t : CPUState} (h : branch_table s = .ok t) :
    t.fl = s.fl ∨ (t.fl = 1 ∨ t.fl = 2 ∨ t.fl = 4) := by
  rw [branch_table] at h
  by_cases hc0 : s.ir = 160
  · rw [if_pos hc0] at h
    exact .inl (add_fl h)
  · rw [if_neg hc0] at h
    by_cases hc1 : s.ir = 162
    · rw [if_pos hc1] at h
      exact .inl (mul_fl h)
    · rw [if_neg hc1] at h
      by_cases hc2 : s.ir = 167
      · rw [if_pos hc2] at h
        exact .inr (cmp_fl h)
      · rw [if_neg hc2] at h
        by_cases hc3 : s.ir = 80
        · rw [if_pos hc3] at h
          exact .inl (call_fl h)
        · rw [if_neg hc3] at h
          by_cases hc4 : s.ir = 17
          · rw [if_pos hc4] at h
            exact .inl (ret_fl h)
          · rw [if_neg hc4] at h
            by_cases hc5 : s.ir = 84
            · rw [if_pos hc5] at h
              exact .inl (jmp_fl h)
            · rw [if_neg hc5] at h
              by_cases hc6 : s.ir = 85
              · rw [if_pos hc6] at h
                exact .inl (jeq_fl h)
              · rw [if_neg hc6] at h
                by_cases hc7 : s.ir = 86
                · rw [if_pos hc7] at h
                  exact .inl (jne_fl h)
                · rw [if_neg hc7] at h
                  by_cases hc8 : s.ir = 130
                  · rw [if_pos hc8] at h
                    exact .inl (ldi_fl h)
                  · rw [if_neg hc8] at h
                    by_cases hc9 : s.ir = 69
                    · rw [if_pos hc9] at h
                      exact .inl (push_fl h)
                    · rw [if_neg hc9] at h
                      by_cases hc10 : s.ir = 70
                      · rw [if_pos hc10] at h
                        exact .inl (pop_fl h)
                      · rw [if_neg hc10] at h
                        by_cases hc11 : s.ir = 71
                        · rw [if_pos hc11] at h
                          exact .inl (prn_fl h)
                        · rw [if_neg hc11] at h
                          cases h

theorem fetchExec_fl {s t : CPUState} (h : fetchExec s = .ok t) :
    t.fl = s.fl ∨ (t.fl = 1 ∨ t.fl = 2 ∨ t.fl = 4) := by
  simp only [fetchExec] at h
  rw [except_bind_ok] at h; obtain ⟨u, hu, h⟩ := h
  rcases branch_table_fl h with h1 | h1
  · exact .inl (h1.trans (fetch_fl hu))
  · exact .inr h1

theorem loadFrom_fl : ∀ (l : List Int) (i : Int) (s t : CPUState),
    loadFrom l i s = .ok t → t.fl = s.fl := by
  intro l
  induction l with
  | nil => intro i s t h; cases h; rfl
  | cons b rest ih =>
    intro i s t h
    simp only [loadFrom] at h
    rw [except_bind_ok] at h
    obtain ⟨u, hu, h⟩ := h
    have h1 := ram_write_fl hu
    have h2 := ih _ _ _ h
    exact h2.trans h1

theorem reached_fl {s : CPUState} (h : Reached s) :
    s.fl = 0 ∨ s.fl = 1 ∨ s.fl = 2 ∨ s.fl = 4 := by
  induction h with
  | init => left; rfl
  | loaded prog u u' _ hl ih => rw [loadFrom_fl prog 0 u u' hl]; exact ih
  | step u u' _ hs ih =>
    rcases fetchExec_fl hs with h1 | h1
    · rw [h1]; exact ih
    · right; exact h1

end LS8

namespace LS8

/-- Claim C1 (code bug): the spec demands `ALU(ADD, a, b) = (a + b) mod 256`
with the same masking law for SUB and MUL, and the code's own docstring
demands the `& 0xFF` mask, but `CPU.alu` stores the raw unmasked sum and
product (here `200 + 100 = 300` and `200 * 100 = 20000` are stored, where
the masked results would be `44` and `32`) and SUB is not implemented at
all: it raises the unsupported-operation exception. -/
theorem c1_alu_no_masking :
    (alu aluState "ADD" 0 1).toOption.map (fun t => t.reg 0) = some 300 ∧
    ((200 + 100) % 256 : Int) = 44 ∧ (300 : Int) ≠ 44 ∧
    (alu aluState "MUL" 0 1).toOption.map (fun t => t.reg 0) = some 20000 ∧
    ((200 * 100) % 256 : Int) = 32 ∧ (20000 : Int) ≠ 32 ∧
    alu aluState "SUB" 0 1 = .error (.exception "Unsupported ALU operation") := by
  refine ⟨by decide, by decide, by decide, by decide, by decide, by decide, by decide⟩

/-- Claim C2 (code bug): the spec (and the code's docstring) say every
register write stores `value & 0xFF`, keeping all register slots in
`[0, 255]`; but `CPU.alu` and `CPU.ldi` store raw values, so an ADD of
`200 + 100` leaves `300` in register 0, and an LDI whose immediate RAM cell
holds `999` (the loader performs no range check) leaves `999` there. -/
theorem c2_register_write_unmasked :
    (alu aluState "ADD" 0 1).toOption.map (fun t => t.reg 0) = some 300 ∧
    ¬ (300 : Int) ≤ 255 ∧
    (ldi ldiState).toOption.map (fun t => t.reg 0) = some 999 ∧
    ¬ (999 : Int) ≤ 255 := by
  refine ⟨by decide, by decide, by decide, by decide⟩

/-- Claim C3 (code bug): the spec requires the instruction cycle to be a
single explicit iteration whose call depth does not grow with the number of
instructions executed, but `CPU.run` re-invokes `self.run()` inside its loop
for every executed instruction: programs executing 0, 1 and 2 instructions
before HLT produce `run` call-nesting depths 1, 2 and 3. -/
theorem c3_run_depth_grows :
    runDepth [1] 8 = some (.ok 1) ∧
    runDepth [0b10000010, 0, 8, 1] 8 = some (.ok 2) ∧
    runDepth [0b10000010, 0, 8, 0b10000010, 1, 9, 1] 10 = some (.ok 3) ∧
    (1 : Nat) < 2 ∧ (2 : Nat) < 3 := by
  refine ⟨by decide, by decide, by decide, by decide, by decide⟩

/-- Claim C4 (code bug): the spec demands that `PUSH` with the stack pointer
already at address 0 raises a bounds fault and never silently wraps; but the
code decrements `reg[7]` to `-1` and `self.ram[-1] = value` silently writes
RAM address 255 via Python negative indexing — the push succeeds with no
fault, register 7 left at `-1` and the value `42` deposited at address 255. -/
theorem c4_push_sp_zero_wraps :
    (fetchExec pushSpZeroState).toOption.map (fun t => (t.reg 7, t.ram 255)) =
      some (-1, 42) ∧
    pushSpZeroState.reg 7 = 0 := by
  refine ⟨by decide, by decide⟩

/-- Claim C9, counterexample: with divisor 0 the ALU does not raise an
arithmetic (zero-divisor) fault — DIV is simply not implemented, so the
error raised is the generic `Exception("Unsupported ALU operation")`, the
fault class the spec reserves for an ALU selector outside the defined set,
not the spec's arithmetic fault. -/
theorem c9_div_counterexample :
    alu initCPU "DIV" 1 0 = .error (.exception "Unsupported ALU operation") ∧
    alu initCPU "MOD" 1 0 = .error (.exception "Unsupported ALU operation") := by
  refine ⟨by decide, by decide⟩

/-- Claim C9, amended: invoking the ALU with DIV or MOD never returns a
result value — for every state and all operands (zero divisor included) it
raises the unsupported-ALU-operation exception, because neither op is
implemented. -/
theorem c9_div_mod_amended (s : CPUState) (a b : Int) :
    alu s "DIV" a b = .error (.exception "Unsupported ALU operation") ∧
    alu s "MOD" a b = .error (.exception "Unsupported ALU operation") := by
  constructor <;> (unfold alu; rw [if_neg (by decide), if_neg (by decide)])


/-- Claim C5 (confirmed): after any successful execution of `CMP`, the flags
register holds exactly one of the Equal (bit 0), Greater-than (bit 1),
Less-than (bit 2) flag bits — `fl` is exactly 1, 2 or 4 with the other two
bits zero — chosen by numeric comparison of the two operand register values,
with ties going to Equal. -/
theorem c5_cmp_flag_exclusivity (s s' : CPUState) (h : cmp s = .ok s') :
    (s'.fl = 1 ∨ s'.fl = 2 ∨ s'.fl = 4) ∧
    ∃ a b va vb : Int,
      ram_read { s with mar := s.mar + 1 } = .ok a ∧
      ram_read { s with mar := s.mar + 1 + 1 } = .ok b ∧
      reg_read s a = .ok va ∧
      reg_read s b = .ok vb ∧
      (s'.fl = 1 ↔ va = vb) ∧
      (s'.fl = 2 ↔ va > vb) ∧
      (s'.fl = 4 ↔ va < vb) ∧
      (Int.land s'.fl 1 ≠ 0 ↔ va = vb) ∧
      (Int.land s'.fl 2 ≠ 0 ↔ va > vb) ∧
      (Int.land s'.fl 4 ≠ 0 ↔ va < vb) := by
  simp only [cmp] at h
  rw [except_bind_ok] at h; obtain ⟨a, ha, h⟩ := h
  rw [except_bind_ok] at h; obtain ⟨b, hb, h⟩ := h
  rw [except_bind_ok] at h; obtain ⟨va, hva, h⟩ := h
  rw [except_bind_ok] at h; obtain ⟨vb, hvb, h⟩ := h
  split_ifs at h with hc1 hc2 <;> (rw [pure_eq_ok] at h; subst h)
  · exact ⟨Or.inl rfl, a, b, va, vb, ha, hb, hva, hvb,
      iff_of_true rfl hc1,
      iff_of_false (show ¬(1 : Int) = 2 by decide) (by omega),
      iff_of_false (show ¬(1 : Int) = 4 by decide) (by omega),
      iff_of_true (show Int.land (1 : Int) 1 ≠ 0 by decide) hc1,
      iff_of_false (show ¬Int.land (1 : Int) 2 ≠ 0 by decide) (by omega),
      iff_of_false (show ¬Int.land (1 : Int) 4 ≠ 0 by decide) (by omega)⟩
  · exact ⟨Or.inr (Or.inl rfl), a, b, va, vb, ha, hb, hva, hvb,
      iff_of_false (show ¬(2 : Int) = 1 by decide) (by omega),
      iff_of_true rfl hc2,
      iff_of_false (show ¬(2 : Int) = 4 by decide) (by omega),
      iff_of_false (show ¬Int.land (2 : Int) 1 ≠ 0 by decide) (by omega),
      iff_of_true (show Int.land (2 : Int) 2 ≠ 0 by decide) hc2,
      iff_of_false (show ¬Int.land (2 : Int) 4 ≠ 0 by decide) (by omega)⟩
  · exact ⟨Or.inr (Or.inr rfl), a, b, va, vb, ha, hb, hva, hvb,
      iff_of_false (show ¬(4 : Int) = 1 by decide) (by omega),
      iff_of_false (show ¬(4 : Int) = 2 by decide) (by omega),
      iff_of_true rfl (by omega),
      iff_of_false (show ¬Int.land (4 : Int) 1 ≠ 0 by decide) (by omega),
      iff_of_false (show ¬Int.land (4 : Int) 2 ≠ 0 by decide) (by omega),
      iff_of_true (show Int.land (4 : Int) 4 ≠ 0 by decide) (by omega)⟩

/-- Claim C5, witness: `CMP R2, R3` with `R2 = 9 > R3 = 4` succeeds and the
theorem yields the mutually-exclusive flag facts at this concrete input. -/
theorem c5_cmp_flag_exclusivity_witness :
    cmpGtRes.fl = 1 ∨ cmpGtRes.fl = 2 ∨ cmpGtRes.fl = 4 :=
  (c5_cmp_flag_exclusivity { cmpGtState with mar := cmpGtState.pc } cmpGtRes (by rfl)).1

/-- Claim C10 (confirmed): a successful `CMP` leaves every one of the eight
general-purpose registers, every one of the 256 memory cells, and also the
`mdr` and `ir` internal registers exactly as they were: it mutates only
`fl`, `pc` and the operand-fetch register `mar`. -/
theorem c10_cmp_frame (s s' : CPUState) (h : cmp s = .ok s') :
    s'.reg = s.reg ∧ s'.ram = s.ram ∧ s'.mdr = s.mdr ∧ s'.ir = s.ir := by
  simp only [cmp] at h
  rw [except_bind_ok] at h; obtain ⟨a, ha, h⟩ := h
  rw [except_bind_ok] at h; obtain ⟨b, hb, h⟩ := h
  rw [except_bind_ok] at h; obtain ⟨va, hva, h⟩ := h
  rw [except_bind_ok] at h; obtain ⟨vb, hvb, h⟩ := h
  split_ifs at h <;> (rw [pure_eq_ok] at h; subst h)
  · exact ⟨rfl, rfl, rfl, rfl⟩
  · exact ⟨rfl, rfl, rfl, rfl⟩
  · exact ⟨rfl, rfl, rfl, rfl⟩

/-- Claim C10, witness: `CMP R0, R1` with `R0 = R1 = 5` succeeds and the
theorem yields the frame facts at this concrete input. -/
theorem c10_cmp_frame_witness :
    cmpEqRes.reg = ({ cmpEqState with mar := cmpEqState.pc } : CPUState).reg ∧
    cmpEqRes.ram = ({ cmpEqState with mar := cmpEqState.pc } : CPUState).ram ∧
    cmpEqRes.mdr = ({ cmpEqState with mar := cmpEqState.pc } : CPUState).mdr ∧
    cmpEqRes.ir = ({ cmpEqState with mar := cmpEqState.pc } : CPUState).ir :=
  c10_cmp_frame { cmpEqState with mar := cmpEqState.pc } cmpEqRes (by rfl)


/-- Claim C8 (confirmed): every reachable flags value lies in {0, 1, 2, 4}
(0 initially, 1/2/4 after any comparison, and every fetch-dispatch step
preserves membership); for every such flags value, a successful `JEQ` jumps
to the target register's value exactly when the Equal bit is set, and a
successful `JNE` exactly when the Equal bit is clear; in the not-taken case
each advances the program counter by `1 + operand_count = 2`. -/
theorem c8_jeq_jne :
    (∀ s : CPUState, Reached s → (s.fl = 0 ∨ s.fl = 1 ∨ s.fl = 2 ∨ s.fl = 4)) ∧
    (∀ s s' : CPUState, (s.fl = 0 ∨ s.fl = 1 ∨ s.fl = 2 ∨ s.fl = 4) →
      jeq s = .ok s' →
      (Int.land s.fl 1 ≠ 0 → ∃ a : Int, ∃ fa : Fin 8,
        ram_read { s with mar := s.mar + 1 } = .ok a ∧ pyIdx 8 a = some fa ∧
        s'.pc = s.reg fa) ∧
      (Int.land s.fl 1 = 0 → s'.pc = s.pc + 2)) ∧
    (∀ s s' : CPUState, jne s = .ok s' →
      (Int.land s.fl 1 = 0 → ∃ a : Int, ∃ fa : Fin 8,
        ram_read { s with mar := s.mar + 1 } = .ok a ∧ pyIdx 8 a = some fa ∧
        s'.pc = s.reg fa) ∧
      (Int.land s.fl 1 ≠ 0 → s'.pc = s.pc + 2)) := by
  refine ⟨fun s h => reached_fl h, ?_, ?_⟩
  · intro s s' hfl h
    unfold jeq at h
    constructor
    · intro hbit
      have hf : s.fl = 1 := by
        rcases hfl with hf0 | hf1 | hf2 | hf4
        · rw [hf0] at hbit; exact absurd (by decide) hbit
        · exact hf1
        · rw [hf2] at hbit; exact absurd (by decide) hbit
        · rw [hf4] at hbit; exact absurd (by decide) hbit
      rw [if_pos hf] at h
      rw [except_bind_ok] at h; obtain ⟨a, ha, h⟩ := h
      rw [except_bind_ok] at h; obtain ⟨v, hv, h⟩ := h
      rw [pure_eq_ok] at h; subst h
      unfold reg_read at hv
      split at hv
      · rename_i fa hfa
        cases hv
        exact ⟨a, fa, ha, hfa, rfl⟩
      · cases hv
    · intro hbit
      have hf : s.fl ≠ 1 := by
        intro hf1; rw [hf1] at hbit; exact absurd hbit (by decide)
      rw [if_neg hf] at h
      cases h; rfl
  · intro s s' h
    unfold jne at h
    constructor
    · intro hbit
      rw [if_pos hbit] at h
      rw [except_bind_ok] at h; obtain ⟨a, ha, h⟩ := h
      rw [except_bind_ok] at h; obtain ⟨v, hv, h⟩ := h
      rw [pure_eq_ok] at h; subst h
      unfold reg_read at hv
      split at hv
      · rename_i fa hfa
        cases hv
        exact ⟨a, fa, ha, hfa, rfl⟩
      · cases hv
    · intro hbit
      rw [if_neg hbit] at h
      cases h; rfl

/-- Claim C8, witness: the fresh machine's flags are in the reachable set,
`JEQ R3` with the Equal flag set jumps (to `R3 = 77`), and `JNE` at the same
state falls through to `pc + 2`. -/
theorem c8_jeq_jne_witness :
    (initCPU.fl = 0 ∨ initCPU.fl = 1 ∨ initCPU.fl = 2 ∨ initCPU.fl = 4) ∧
    (∃ a : Int, ∃ fa : Fin 8,
      ram_read { jeqTakenState with mar := jeqTakenState.mar + 1 } = .ok a ∧
      pyIdx 8 a = some fa ∧ jeqTakenRes.pc = jeqTakenState.reg fa) ∧
    jneNotTakenRes.pc = jeqTakenState.pc + 2 :=
  ⟨c8_jeq_jne.1 initCPU Reached.init,
   (c8_jeq_jne.2.1 jeqTakenState jeqTakenRes (Or.inr (Or.inl rfl)) (by rfl)).1 (by decide),
   (c8_jeq_jne.2.2 jeqTakenState jneNotTakenRes (by rfl)).2 (by decide)⟩



theorem fetchExec_eq {s s1 s2 : CPUState} (h1 : fetch s = .ok s1)
    (h2 : branch_table s1 = .ok s2) : fetchExec s = .ok s2 := by
  unfold fetchExec
  rw [h1, ok_bind, h2]

theorem twoSteps_eq {s s1 s2 : CPUState} (h1 : fetchExec s = .ok s1)
    (h2 : fetchExec s1 = .ok s2) : twoSteps s = .ok s2 := by
  unfold twoSteps
  rw [h1, ok_bind, h2]

theorem branch_table_push {s : CPUState} (h : s.ir = 0b01000101) :
    branch_table s = push s := by
  unfold branch_table
  rw [h]
  norm_num

theorem branch_table_pop {s : CPUState} (h : s.ir = 0b01000110) :
    branch_table s = pop s := by
  unfold branch_table
  rw [h]
  norm_num

theorem branch_table_call {s : CPUState} (h : s.ir = 0b01010000) :
    branch_table s = call s := by
  unfold branch_table
  rw [h]
  norm_num

theorem branch_table_ret {s : CPUState} (h : s.ir = 0b00010001) :
    branch_table s = ret s := by
  unfold branch_table
  rw [h]
  norm_num

/-- Claim C6, counterexample: with `POP R7` — register 7 is "any register"
per the claim — the round trip `PUSH R0; POP R7` at an in-bounds state
(`R0 = 42`, `SP = 244`, all stack activity inside `[0, 255]`) leaves
register 7 holding `43`, which is neither the pre-push value of `R0` (42)
as the claim requires of `r'`, nor the pre-push stack pointer (244): `pop`
writes the popped value into `reg[7]` and then increments it. -/
theorem c6_push_pop_counterexample :
    (twoSteps pushPopR7State).toOption.map (fun t => t.reg 7) = some 43 ∧
    pushPopR7State.reg 0 = 42 ∧ pushPopR7State.reg 7 = 244 ∧
    (43 : Int) ≠ 42 ∧ (43 : Int) ≠ 244 := by
  refine ⟨by decide, by decide, by decide, by decide, by decide⟩

/-- Claim C6, amended: for any registers `r` and `r'` other than register 7
(the stack pointer), and any machine state where the four instruction
bytes and the pushed stack cell are in bounds and the pushed cell does not
overlap the `POP` instruction's opcode or operand bytes, executing
`PUSH r` followed immediately by `POP r'` leaves register `r'` holding the
value register `r` held before the push, and leaves register 7 equal to its
pre-push value. -/
theorem c6_push_pop_amended (s : CPUState) (r r' : Fin 8)
    (hr : r.val ≠ 7) (hr' : r'.val ≠ 7)
    (hpc0 : 0 ≤ s.pc) (hpc3 : s.pc + 3 < 256)
    (hsp1 : 1 ≤ s.reg 7) (hsp2 : s.reg 7 ≤ 256)
    (hnc2 : s.reg 7 - 1 ≠ s.pc + 2) (hnc3 : s.reg 7 - 1 ≠ s.pc + 3)
    (hbyte0 : s.ram ⟨s.pc.toNat, by omega⟩ = 0b01000101)
    (hbyte1 : s.ram ⟨(s.pc + 1).toNat, by omega⟩ = (r.val : Int))
    (hbyte2 : s.ram ⟨(s.pc + 2).toNat, by omega⟩ = 0b01000110)
    (hbyte3 : s.ram ⟨(s.pc + 3).toNat, by omega⟩ = (r'.val : Int)) :
    ∃ s', twoSteps s = .ok s' ∧ s'.reg r' = s.reg r ∧ s'.reg 7 = s.reg 7 := by
  have hnat0 : s.pc.toNat < 256 := by omega
  have hnat1 : (s.pc + 1).toNat < 256 := by omega
  have hnat2 : (s.pc + 2).toNat < 256 := by omega
  have hnat3 : (s.pc + 2 + 1).toNat < 256 := by omega
  have hnatw : (s.reg 7 - 1).toNat < 256 := by omega
  have hpy0 : pyIdx 256 s.pc = some ⟨s.pc.toNat, hnat0⟩ := pyIdx_pos hpc0 (by omega)
  have hpy1 : pyIdx 256 (s.pc + 1) = some ⟨(s.pc + 1).toNat, hnat1⟩ :=
    pyIdx_pos (by omega) (by omega)
  have hpy2 : pyIdx 256 (s.pc + 2) = some ⟨(s.pc + 2).toNat, hnat2⟩ :=
    pyIdx_pos (by omega) (by omega)
  have hpy3x : pyIdx 256 (s.pc + 2 + 1) = some ⟨(s.pc + 2 + 1).toNat, hnat3⟩ :=
    pyIdx_pos (by omega) (by omega)
  have hpyw : pyIdx 256 (s.reg 7 - 1) = some ⟨(s.reg 7 - 1).toNat, hnatw⟩ :=
    pyIdx_pos (by omega) (by omega)
  have hVsp : (Function.update s.reg 7 (s.reg 7 - 1)) 7 = s.reg 7 - 1 := Function.update_same _ _ _
  have hpywV : pyIdx 256 ((Function.update s.reg 7 (s.reg 7 - 1)) 7) = some ⟨(s.reg 7 - 1).toNat, hnatw⟩ := by
    rw [hVsp]
    exact hpyw
  -- first fetch reads the PUSH opcode
  have hf1 : fetch s = .ok { s with mar := s.pc, ir := 0b01000101 } :=
    (@fetch_ok s ⟨s.pc.toNat, hnat0⟩ hpy0).trans
      (congrArg (fun z : Int => Except.ok { s with mar := s.pc, ir := z }) hbyte0)
  -- push
  have hp : push { s with mar := s.pc, ir := 0b01000101 } = .ok
      { s with
        ram := Function.update s.ram ⟨(s.reg 7 - 1).toNat, hnatw⟩ (Function.update s.reg 7 (s.reg 7 - 1) r)
        reg := Function.update s.reg 7 (s.reg 7 - 1)
        mar := s.reg 7 - 1
        mdr := Function.update s.reg 7 (s.reg 7 - 1) r
        ir := 0b01000101
        pc := s.pc + 2 } :=
    @push_ok { s with mar := s.pc, ir := 0b01000101 } ⟨(s.pc + 1).toNat, hnat1⟩ ⟨(s.reg 7 - 1).toNat, hnatw⟩ r hpy1 hbyte1 hpyw
  -- second fetch reads the POP opcode: the pushed cell does not alias it
  have hirv : (Function.update s.ram ⟨(s.reg 7 - 1).toNat, hnatw⟩ (Function.update s.reg 7 (s.reg 7 - 1) r)) ⟨(s.pc + 2).toNat, hnat2⟩ = 0b01000110 := by
    rw [Function.update_noteq (Fin.ne_of_val_ne (by omega : (s.pc + 2).toNat ≠ (s.reg 7 - 1).toNat))]
    exact hbyte2
  have hf2 : fetch { s with
        ram := Function.update s.ram ⟨(s.reg 7 - 1).toNat, hnatw⟩ (Function.update s.reg 7 (s.reg 7 - 1) r)
        reg := Function.update s.reg 7 (s.reg 7 - 1)
        mar := s.reg 7 - 1
        mdr := Function.update s.reg 7 (s.reg 7 - 1) r
        ir := 0b01000101
        pc := s.pc + 2 } = .ok { s with
        ram := Function.update s.ram ⟨(s.reg 7 - 1).toNat, hnatw⟩ (Function.update s.reg 7 (s.reg 7 - 1) r)
        reg := Function.update s.reg 7 (s.reg 7 - 1)
        mar := s.pc + 2
        mdr := Function.update s.reg 7 (s.reg 7 - 1) r
        ir := 0b01000110
        pc := s.pc + 2 } :=
    (@fetch_ok { s with
        ram := Function.update s.ram ⟨(s.reg 7 - 1).toNat, hnatw⟩ (Function.update s.reg 7 (s.reg 7 - 1) r)
        reg := Function.update s.reg 7 (s.reg 7 - 1)
        mar := s.reg 7 - 1
        mdr := Function.update s.reg 7 (s.reg 7 - 1) r
        ir := 0b01000101
        pc := s.pc + 2 } ⟨(s.pc + 2).toNat, hnat2⟩ hpy2).trans
      (congrArg (fun z : Int => Except.ok
        { s with
          ram := Function.update s.ram ⟨(s.reg 7 - 1).toNat, hnatw⟩ (Function.update s.reg 7 (s.reg 7 - 1) r)
          reg := Function.update s.reg 7 (s.reg 7 - 1)
          mar := s.pc + 2
          mdr := Function.update s.reg 7 (s.reg 7 - 1) r
          ir := z
          pc := s.pc + 2 }) hirv)
  -- pop: the pushed cell does not alias the POP operand byte either
  have hopv3 : (Function.update s.ram ⟨(s.reg 7 - 1).toNat, hnatw⟩ (Function.update s.reg 7 (s.reg 7 - 1) r)) ⟨(s.pc + 2 + 1).toNat, hnat3⟩ = (r'.val : Int) := by
    rw [Function.update_noteq (Fin.ne_of_val_ne (by omega : (s.pc + 2 + 1).toNat ≠ (s.reg 7 - 1).toNat))]
    rw [show (⟨(s.pc + 2 + 1).toNat, hnat3⟩ : Fin 256) = ⟨(s.pc + 3).toNat, by omega⟩ by
      simp only [Fin.mk.injEq]; omega]
    exact hbyte3
  have hpop : pop { s with
        ram := Function.update s.ram ⟨(s.reg 7 - 1).toNat, hnatw⟩ (Function.update s.reg 7 (s.reg 7 - 1) r)
        reg := Function.update s.reg 7 (s.reg 7 - 1)
        mar := s.pc + 2
        mdr := Function.update s.reg 7 (s.reg 7 - 1) r
        ir := 0b01000110
        pc := s.pc + 2 } = .ok
      { s with
        ram := Function.update s.ram ⟨(s.reg 7 - 1).toNat, hnatw⟩ (Function.update s.reg 7 (s.reg 7 - 1) r)
        reg := Function.update (Function.update (Function.update s.reg 7 (s.reg 7 - 1)) r' ((Function.update s.ram ⟨(s.reg 7 - 1).toNat, hnatw⟩ (Function.update s.reg 7 (s.reg 7 - 1) r)) ⟨(s.reg 7 - 1).toNat, hnatw⟩)) 7 (Function.update (Function.update s.reg 7 (s.reg 7 - 1)) r' ((Function.update s.ram ⟨(s.reg 7 - 1).toNat, hnatw⟩ (Function.update s.reg 7 (s.reg 7 - 1) r)) ⟨(s.reg 7 - 1).toNat, hnatw⟩) 7 + 1)
        mar := (Function.update s.reg 7 (s.reg 7 - 1)) 7
        mdr := Function.update s.reg 7 (s.reg 7 - 1) r
        ir := 0b01000110
        pc := s.pc + 2 + 2 } :=
    @pop_ok { s with
        ram := Function.update s.ram ⟨(s.reg 7 - 1).toNat, hnatw⟩ (Function.update s.reg 7 (s.reg 7 - 1) r)
        reg := Function.update s.reg 7 (s.reg 7 - 1)
        mar := s.pc + 2
        mdr := Function.update s.reg 7 (s.reg 7 - 1) r
        ir := 0b01000110
        pc := s.pc + 2 } ⟨(s.pc + 2 + 1).toNat, hnat3⟩ ⟨(s.reg 7 - 1).toNat, hnatw⟩ r' hpy3x hopv3 hpywV
  refine ⟨_, twoSteps_eq (fetchExec_eq hf1 ((@branch_table_push { s with mar := s.pc, ir := 0b01000101 } rfl).trans hp))
      (fetchExec_eq hf2 ((@branch_table_pop { s with
        ram := Function.update s.ram ⟨(s.reg 7 - 1).toNat, hnatw⟩ (Function.update s.reg 7 (s.reg 7 - 1) r)
        reg := Function.update s.reg 7 (s.reg 7 - 1)
        mar := s.pc + 2
        mdr := Function.update s.reg 7 (s.reg 7 - 1) r
        ir := 0b01000110
        pc := s.pc + 2 } rfl).trans hpop)), ?_, ?_⟩
  · have e1 : Function.update (Function.update (Function.update s.reg 7 (s.reg 7 - 1)) r' ((Function.update s.ram ⟨(s.reg 7 - 1).toNat, hnatw⟩ (Function.update s.reg 7 (s.reg 7 - 1) r)) ⟨(s.reg 7 - 1).toNat, hnatw⟩)) 7 (Function.update (Function.update s.reg 7 (s.reg 7 - 1)) r' ((Function.update s.ram ⟨(s.reg 7 - 1).toNat, hnatw⟩ (Function.update s.reg 7 (s.reg 7 - 1) r)) ⟨(s.reg 7 - 1).toNat, hnatw⟩) 7 + 1) r' = (Function.update (Function.update s.reg 7 (s.reg 7 - 1)) r' ((Function.update s.ram ⟨(s.reg 7 - 1).toNat, hnatw⟩ (Function.update s.reg 7 (s.reg 7 - 1) r)) ⟨(s.reg 7 - 1).toNat, hnatw⟩)) r' :=
      Function.update_noteq (Fin.ne_of_val_ne hr') _ _
    have e2 : (Function.update (Function.update s.reg 7 (s.reg 7 - 1)) r' ((Function.update s.ram ⟨(s.reg 7 - 1).toNat, hnatw⟩ (Function.update s.reg 7 (s.reg 7 - 1) r)) ⟨(s.reg 7 - 1).toNat, hnatw⟩)) r' = (Function.update s.ram ⟨(s.reg 7 - 1).toNat, hnatw⟩ (Function.update s.reg 7 (s.reg 7 - 1) r)) ⟨(s.reg 7 - 1).toNat, hnatw⟩ :=
      Function.update_same _ _ _
    have e3 : ((Function.update s.ram ⟨(s.reg 7 - 1).toNat, hnatw⟩ (Function.update s.reg 7 (s.reg 7 - 1) r)) ⟨(s.reg 7 - 1).toNat, hnatw⟩ : Int) = Function.update s.reg 7 (s.reg 7 - 1) r :=
      Function.update_same _ _ _
    have e4 : (Function.update s.reg 7 (s.reg 7 - 1)) r = s.reg r :=
      Function.update_noteq (Fin.ne_of_val_ne hr) _ _
    exact e1.trans (e2.trans (e3.trans e4))
  · have f1 : Function.update (Function.update (Function.update s.reg 7 (s.reg 7 - 1)) r' ((Function.update s.ram ⟨(s.reg 7 - 1).toNat, hnatw⟩ (Function.update s.reg 7 (s.reg 7 - 1) r)) ⟨(s.reg 7 - 1).toNat, hnatw⟩)) 7 (Function.update (Function.update s.reg 7 (s.reg 7 - 1)) r' ((Function.update s.ram ⟨(s.reg 7 - 1).toNat, hnatw⟩ (Function.update s.reg 7 (s.reg 7 - 1) r)) ⟨(s.reg 7 - 1).toNat, hnatw⟩) 7 + 1) 7 = (Function.update (Function.update s.reg 7 (s.reg 7 - 1)) r' ((Function.update s.ram ⟨(s.reg 7 - 1).toNat, hnatw⟩ (Function.update s.reg 7 (s.reg 7 - 1) r)) ⟨(s.reg 7 - 1).toNat, hnatw⟩)) 7 + 1 :=
      Function.update_same _ _ _
    have f2 : (Function.update (Function.update s.reg 7 (s.reg 7 - 1)) r' ((Function.update s.ram ⟨(s.reg 7 - 1).toNat, hnatw⟩ (Function.update s.reg 7 (s.reg 7 - 1) r)) ⟨(s.reg 7 - 1).toNat, hnatw⟩)) 7 = (Function.update s.reg 7 (s.reg 7 - 1)) 7 :=
      Function.update_noteq (Fin.ne_of_val_ne (Ne.symm hr')) _ _
    have f4 : (Function.update (Function.update s.reg 7 (s.reg 7 - 1)) r' ((Function.update s.ram ⟨(s.reg 7 - 1).toNat, hnatw⟩ (Function.update s.reg 7 (s.reg 7 - 1) r)) ⟨(s.reg 7 - 1).toNat, hnatw⟩)) 7 + 1 = s.reg 7 - 1 + 1 :=
      congrArg (fun z : Int => z + 1) (f2.trans hVsp)
    exact f1.trans (f4.trans (by omega))


/-- Claim C7 (confirmed): `CALL r` pushes the address of the instruction
immediately following the `CALL` and its operand — `PC + 1 + operand_count`
with one operand, i.e. `PC + 2` — onto the stack, and a subsequent `RET`
(here: the called subroutine begins with `RET`, and the pushed cell does
not alias the `RET` opcode byte) restores `PC` to exactly that address,
also restoring the stack pointer. -/
theorem c7_call_ret (s : CPUState) (r : Fin 8) (hr : r.val ≠ 7)
    (hpc0 : 0 ≤ s.pc) (hpc1 : s.pc + 1 < 256)
    (hsp1 : 1 ≤ s.reg 7) (hsp2 : s.reg 7 ≤ 256)
    (ht0 : 0 ≤ s.reg r) (ht1 : s.reg r < 256)
    (hnct : s.reg 7 - 1 ≠ s.reg r)
    (hbyte0 : s.ram ⟨s.pc.toNat, by omega⟩ = 0b01010000)
    (hbyte1 : s.ram ⟨(s.pc + 1).toNat, by omega⟩ = (r.val : Int))
    (hret : s.ram ⟨(s.reg r).toNat, by omega⟩ = 0b00010001) :
    ∃ s', twoSteps s = .ok s' ∧
      s'.ram ⟨(s.reg 7 - 1).toNat, by omega⟩ = s.pc + 1 + 1 ∧
      s'.pc = s.pc + 1 + 1 ∧
      s'.reg 7 = s.reg 7 := by
  have hnat0 : s.pc.toNat < 256 := by omega
  have hnat1 : (s.pc + 1).toNat < 256 := by omega
  have hnatw : (s.reg 7 - 1).toNat < 256 := by omega
  have hnatt : (s.reg r).toNat < 256 := by omega
  have hpy0 : pyIdx 256 s.pc = some ⟨s.pc.toNat, hnat0⟩ := pyIdx_pos hpc0 (by omega)
  have hpy1 : pyIdx 256 (s.pc + 1) = some ⟨(s.pc + 1).toNat, hnat1⟩ :=
    pyIdx_pos (by omega) (by omega)
  have hpyw : pyIdx 256 (s.reg 7 - 1) = some ⟨(s.reg 7 - 1).toNat, hnatw⟩ :=
    pyIdx_pos (by omega) (by omega)
  have hpct : pyIdx 256 (s.reg r) = some ⟨(s.reg r).toNat, hnatt⟩ :=
    pyIdx_pos ht0 (by omega)
  have hVsp : (Function.update s.reg 7 (s.reg 7 - 1)) 7 = s.reg 7 - 1 := Function.update_same _ _ _
  have hpywV : pyIdx 256 ((Function.update s.reg 7 (s.reg 7 - 1)) 7) = some ⟨(s.reg 7 - 1).toNat, hnatw⟩ := by
    rw [hVsp]
    exact hpyw
  have hupd : (Function.update s.reg 7 (s.reg 7 - 1)) r = s.reg r :=
    Function.update_noteq (Fin.ne_of_val_ne hr) _ _
  -- first fetch reads the CALL opcode
  have hf1 : fetch s = .ok { s with mar := s.pc, ir := 0b01010000 } :=
    (@fetch_ok s ⟨s.pc.toNat, hnat0⟩ hpy0).trans
      (congrArg (fun z : Int => Except.ok { s with mar := s.pc, ir := z }) hbyte0)
  -- call pushes pc + 2 and jumps to the target register
  have hc : call { s with mar := s.pc, ir := 0b01010000 } = .ok
      { s with
        ram := Function.update s.ram ⟨(s.reg 7 - 1).toNat, hnatw⟩ (s.pc + 2)
        reg := Function.update s.reg 7 (s.reg 7 - 1)
        mar := s.reg 7 - 1
        mdr := s.pc + 2
        ir := 0b01010000
        pc := (Function.update s.reg 7 (s.reg 7 - 1)) r } :=
    @call_ok { s with mar := s.pc, ir := 0b01010000 } ⟨(s.pc + 1).toNat, hnat1⟩ ⟨(s.reg 7 - 1).toNat, hnatw⟩ r hpy1 hbyte1 hpyw
  have hc2 : call { s with mar := s.pc, ir := 0b01010000 } = .ok
      { s with
        ram := Function.update s.ram ⟨(s.reg 7 - 1).toNat, hnatw⟩ (s.pc + 2)
        reg := Function.update s.reg 7 (s.reg 7 - 1)
        mar := s.reg 7 - 1
        mdr := s.pc + 2
        ir := 0b01010000
        pc := s.reg r } :=
    hc.trans (congrArg (fun z : Int => Except.ok
      { s with
        ram := Function.update s.ram ⟨(s.reg 7 - 1).toNat, hnatw⟩ (s.pc + 2)
        reg := Function.update s.reg 7 (s.reg 7 - 1)
        mar := s.reg 7 - 1
        mdr := s.pc + 2
        ir := 0b01010000
        pc := z }) hupd)
  -- second fetch, at the call target, reads the RET opcode (not clobbered)
  have hirv : (Function.update s.ram ⟨(s.reg 7 - 1).toNat, hnatw⟩ (s.pc + 2)) ⟨(s.reg r).toNat, hnatt⟩ = 0b00010001 := by
    rw [Function.update_noteq (Fin.ne_of_val_ne (by omega : (s.reg r).toNat ≠ (s.reg 7 - 1).toNat))]
    exact hret
  have hf2 : fetch { s with
        ram := Function.update s.ram ⟨(s.reg 7 - 1).toNat, hnatw⟩ (s.pc + 2)
        reg := Function.update s.reg 7 (s.reg 7 - 1)
        mar := s.reg 7 - 1
        mdr := s.pc + 2
        ir := 0b01010000
        pc := s.reg r } = .ok { s with
        ram := Function.update s.ram ⟨(s.reg 7 - 1).toNat, hnatw⟩ (s.pc + 2)
        reg := Function.update s.reg 7 (s.reg 7 - 1)
        mar := s.reg r
        mdr := s.pc + 2
        ir := 0b00010001
        pc := s.reg r } :=
    (@fetch_ok { s with
        ram := Function.update s.ram ⟨(s.reg 7 - 1).toNat, hnatw⟩ (s.pc + 2)
        reg := Function.update s.reg 7 (s.reg 7 - 1)
        mar := s.reg 7 - 1
        mdr := s.pc + 2
        ir := 0b01010000
        pc := s.reg r } ⟨(s.reg r).toNat, hnatt⟩ hpct).trans
      (congrArg (fun z : Int => Except.ok
        { s with
          ram := Function.update s.ram ⟨(s.reg 7 - 1).toNat, hnatw⟩ (s.pc + 2)
          reg := Function.update s.reg 7 (s.reg 7 - 1)
          mar := s.reg r
          mdr := s.pc + 2
          ir := z
          pc := s.reg r }) hirv)
  -- ret pops the pushed return address back into pc
  have hrt : ret { s with
        ram := Function.update s.ram ⟨(s.reg 7 - 1).toNat, hnatw⟩ (s.pc + 2)
        reg := Function.update s.reg 7 (s.reg 7 - 1)
        mar := s.reg r
        mdr := s.pc + 2
        ir := 0b00010001
        pc := s.reg r } = .ok
      { s with
        ram := Function.update s.ram ⟨(s.reg 7 - 1).toNat, hnatw⟩ (s.pc + 2)
        reg := Function.update (Function.update s.reg 7 (s.reg 7 - 1)) 7 ((Function.update s.reg 7 (s.reg 7 - 1)) 7 + 1)
        mar := (Function.update s.reg 7 (s.reg 7 - 1)) 7
        mdr := s.pc + 2
        ir := 0b00010001
        pc := (Function.update s.ram ⟨(s.reg 7 - 1).toNat, hnatw⟩ (s.pc + 2)) ⟨(s.reg 7 - 1).toNat, hnatw⟩ } :=
    @ret_ok { s with
        ram := Function.update s.ram ⟨(s.reg 7 - 1).toNat, hnatw⟩ (s.pc + 2)
        reg := Function.update s.reg 7 (s.reg 7 - 1)
        mar := s.reg r
        mdr := s.pc + 2
        ir := 0b00010001
        pc := s.reg r } ⟨(s.reg 7 - 1).toNat, hnatw⟩ hpywV
  have g0 : (Function.update s.ram ⟨(s.reg 7 - 1).toNat, hnatw⟩ (s.pc + 2)) ⟨(s.reg 7 - 1).toNat, hnatw⟩ = s.pc + 2 := Function.update_same _ _ _
  refine ⟨_, twoSteps_eq (fetchExec_eq hf1 ((@branch_table_call { s with mar := s.pc, ir := 0b01010000 } rfl).trans hc2))
      (fetchExec_eq hf2 ((@branch_table_ret { s with
        ram := Function.update s.ram ⟨(s.reg 7 - 1).toNat, hnatw⟩ (s.pc + 2)
        reg := Function.update s.reg 7 (s.reg 7 - 1)
        mar := s.reg r
        mdr := s.pc + 2
        ir := 0b00010001
        pc := s.reg r } rfl).trans hrt)), ?_, ?_, ?_⟩
  · exact g0.trans (by omega)
  · exact g0.trans (by omega)
  · have g1 : Function.update (Function.update s.reg 7 (s.reg 7 - 1)) 7 ((Function.update s.reg 7 (s.reg 7 - 1)) 7 + 1) 7 = (Function.update s.reg 7 (s.reg 7 - 1)) 7 + 1 :=
      Function.update_same _ _ _
    have g4 : (Function.update s.reg 7 (s.reg 7 - 1)) 7 + 1 = s.reg 7 - 1 + 1 :=
      congrArg (fun z : Int => z + 1) hVsp
    exact g1.trans (g4.trans (by omega))

/-- Claim C6, amended, witness: `PUSH R0; POP R1` at a concrete in-bounds
state (`R0 = 42`, `R1 = 7`, `SP = 244`) leaves `R1 = 42` and `SP = 244`. -/
theorem c6_push_pop_amended_witness :
    ∃ s', twoSteps pushPopOkState = .ok s' ∧
      s'.reg 1 = pushPopOkState.reg 0 ∧ s'.reg 7 = pushPopOkState.reg 7 :=
  c6_push_pop_amended pushPopOkState 0 1 (by decide) (by decide) (by decide) (by decide)
    (by decide) (by decide) (by decide) (by decide) (by decide) (by decide) (by decide)
    (by decide)

/-- Claim C7, witness: `CALL R0` with `R0 = 10`, `SP = 244`, and a `RET` at
address 10 pushes `0 + 1 + 1 = 2` to stack cell 243 and returns with
`PC = 2` and `SP = 244`. -/
theorem c7_call_ret_witness :
    ∃ s', twoSteps callRetState = .ok s' ∧
      s'.ram ⟨(callRetState.reg 7 - 1).toNat, by decide⟩ = callRetState.pc + 1 + 1 ∧
      s'.pc = callRetState.pc + 1 + 1 ∧
      s'.reg 7 = callRetState.reg 7 :=
  c7_call_ret callRetState 0 (by decide) (by decide) (by decide) (by decide) (by decide)
    (by decide) (by decide) (by decide) (by decide) (by decide) (by decide)

end LS8
